import Mathlib

/-!
Shallow embedding of `lightwood/data/splitter.py` (functions `splitter`,
`stratify_wrapper`, `stratify`, `randomize_uneven_stratification`) and
verification of the specification's claims about them.

Modelling conventions:
* A pandas `DataFrame` is a `List Row` (an ordered sequence of rows); column
  access is an explicit valuation `value : Row → String → Val`.
* Python floats are modelled as exact rationals (`ℚ`); Python ints as `ℤ`/`ℕ`.
* Python exceptions are modelled with `Except PyErr` / `Option`.
* Python slicing `l[a:b]` with the nonnegative indices that arise here is
  `(l.drop a).take (b - a)`; `l[:a]` is `l.take a`; `l[a:]` is `l.drop a`.
-/

namespace Splitter

/-- Python exception classes that the translated code can raise.
`configError` stands for the `Exception('The train, dev and test percentage
of the data needs to sum up to 1')` raised by `splitter`. -/
inductive PyErr where
  | typeError
  | valueError
  | configError
deriving DecidableEq

/-- A Python value as far as the built-in `sum` is concerned: a scalar
float, a scalar int, or a list of numbers. -/
inductive PyVal where
  | float (q : ℚ)
  | int (n : ℤ)
  | list (xs : List ℚ)

/-- Python's built-in `sum`: sums an iterable; applied to a scalar number it
raises `TypeError` (a float or int is not iterable). -/
def pySum : PyVal → Except PyErr ℚ
  | .list xs => .ok xs.sum
  | .float _ => .error .typeError
  | .int _ => .error .typeError

/-- A Python number together with its runtime type tag, as seen by numpy. -/
inductive PyNum where
  | int (n : ℤ)
  | float (q : ℚ)

/-- `np.gcd`: the gcd ufunc is defined for integer operands only; applied to
one or more float operands it raises `TypeError` (no matching loop), even
when the float happens to have an integral value. -/
def npGcd : PyNum → PyNum → Except PyErr ℤ
  | .int a, .int b => .ok (Int.gcd a b)
  | _, _ => .error .typeError

/-- Python `int(q)` on a nonnegative float: truncation toward zero. -/
def pyInt (q : ℚ) : ℤ := q.num / (q.den : ℤ)

/-- Python's built-in `round` on a float, half-to-even (banker's rounding). -/
def pyRound (q : ℚ) : ℤ :=
  if q - q.floor < 1 / 2 then q.floor
  else if 1 / 2 < q - q.floor then q.floor + 1
  else if q.floor % 2 = 0 then q.floor else q.floor + 1

/-- A linear congruential step, the internal state transition of the
modelled pseudorandom generator. -/
def lcg (s : ℕ) : ℕ := (1103515245 * s + 12345) % 4294967296

/-- Modelled from the spec: `pandas.DataFrame.sample(frac=1, random_state=seed)`
is external library code; §4.1 describes it as "a deterministic pseudorandom
permutation of row order keyed by `seed`".  We model it as a Fisher–Yates
shuffle driven by `lcg` from the seed. -/
def shuffle {Row : Type} (s : ℕ) (l : List Row) : List Row :=
  match l with
  | [] => []
  | x :: xs =>
    let i := s % (x :: xs).length
    have hi : i < (x :: xs).length := Nat.mod_lt _ (Nat.succ_pos _)
    (x :: xs).get ⟨i, hi⟩ :: shuffle (lcg s) ((x :: xs).eraseIdx i)
termination_by l.length
decreasing_by
  simp only [List.length_eraseIdx, if_pos hi]
  omega

/-- Semantic column type tags (`lightwood.api.dtype`). -/
inductive Dtype where
  | categorical
  | binary
  | numeric
  | other
deriving DecidableEq

/-- `lightwood.api.types.TimeseriesSettings`, restricted to the fields the
splitter reads: `is_timeseries` and `group_by` (a list of column names or
`None`). -/
structure TimeseriesSettings where
  is_timeseries : Bool
  group_by : Option (List String)

/-- The train/dev/test triple produced by the proportional cutoff split. -/
structure SplitTriple (Row : Type) where
  train : List Row
  dev : List Row
  test : List Row
deriving DecidableEq

/-- Lines 39–49 of `splitter`: shuffle unless time series, then slice at the
rounded proportional cutoffs.  `train = data[:train_cutoff]`,
`dev = data[train_cutoff:dev_cutoff]`, `test = data[dev_cutoff:]` with
`train_cutoff = round(n*pct_train)` and
`dev_cutoff = train_cutoff + round(n*pct_dev)`.  For the fraction ranges the
spec admits (`0 ≤ pct`), both cutoffs are nonnegative, so Python slicing is
take/drop. -/
def split_basic {Row : Type} (seed : ℕ) (is_timeseries : Bool)
    (pct_train pct_dev : ℚ) (data : List Row) : SplitTriple Row :=
  let d := if is_timeseries then data else shuffle seed data
  let tc := (pyRound ((d.length : ℚ) * pct_train)).toNat
  let rb := (pyRound ((d.length : ℚ) * pct_dev)).toNat
  ⟨d.take tc, (d.drop tc).take rb, d.drop (tc + rb)⟩

/-- Split a list into consecutive chunks of the given sizes (one chunk per
size; a chunk is truncated if the list runs out). -/
def splitSizes {α : Type} : List α → List ℕ → List (List α)
  | _, [] => []
  | xs, k :: ks => xs.take k :: splitSizes (xs.drop k) ks

/-- `np.array_split(xs, n)`: `n` near-equal contiguous chunks — the first
`len % n` chunks have `len / n + 1` elements, the rest `len / n`.
(numpy raises for `n = 0`; every call site passes `n ≥ 1`.) -/
def array_split {α : Type} (xs : List α) (n : ℕ) : List (List α) :=
  splitSizes xs
    (List.replicate (xs.length % n) (xs.length / n + 1) ++
      List.replicate (n - xs.length % n) (xs.length / n))

/-- `np.max([len(s) for s in subsets])` for nonempty `subsets` (lengths are
nonnegative, so folding `max` from 0 is the maximum). -/
def maxLen {Row : Type} (subsets : List (List Row)) : ℕ :=
  (subsets.map List.length).foldl max 0

/-- `randomize_uneven_stratification` (lines 144–166): if not time series and
some subset is more than `len_threshold` shorter than the longest one, warn
and replace the stratified subsets with a plain `np.array_split` of the raw
data; otherwise return the subsets unchanged.  `np.max` of an empty list
raises `ValueError`, modelled as `none`. -/
def randomize_uneven_stratification {Row : Type} (data : List Row)
    (subsets : List (List Row)) (nr_subsets : ℕ) (tss : TimeseriesSettings)
    (len_threshold : ℤ) : Option (List (List Row)) :=
  if tss.is_timeseries then some subsets
  else if subsets.isEmpty then none
  else if subsets.any (fun s => (s.length : ℤ) < (maxLen subsets : ℤ) - len_threshold) then
    some (array_split data nr_subsets)
  else some subsets

/-- `pandas.Series.unique` order: first occurrences, in order of appearance. -/
def uniqueFirst {α : Type} [DecidableEq α] : List α → List α
  | [] => []
  | x :: xs => x :: uniqueFirst (xs.filter (fun y => decide (y ≠ x)))
termination_by l => l.length
decreasing_by
  have := List.length_filter_le (fun y => decide (y ≠ x)) xs
  simp only [List.length_cons]
  omega

/-- `itertools.product`: cartesian product of the given lists, rightmost
factor varying fastest. -/
def cartProd {α : Type} : List (List α) → List (List α)
  | [] => [[]]
  | l :: ls => l.flatMap (fun x => (cartProd ls).map (fun t => x :: t))

/-- Lines 120–123 of `stratify`: filter `data` successively on each
stratification column being equal to the group key's component. -/
def groupFilter {Row Val : Type} [DecidableEq Val] (value : Row → String → Val)
    (data : List Row) (cols : List String) (g : List Val) : List Row :=
  (cols.zip g).foldl (fun sf p => sf.filter (fun r => decide (value r p.1 = p.2))) data

/-- One rejection draw of the loop
`i = np.random.randint(nr_subset); while i in already_visited: i = ...`:
take draws from the stream until one is fresh.  `none` models the loop
never terminating (stream exhausted without a fresh value). -/
def drawFresh (N : ℕ) (visited : List ℕ) : List ℕ → Option (ℕ × List ℕ)
  | [] => none
  | x :: rest =>
    if x % N ∈ visited then drawFresh N visited rest else some (x % N, rest)

/-- The `for n in range(nr_subset)` rejection loop of the randomized
allocation (lines 130–136), producing for each aggregate subset index `n`
the chunk index `i_n` it receives; `visited` accumulates the indices already
assigned. -/
def allocPermAux (N : ℕ) : ℕ → List ℕ → List ℕ → Option (List ℕ × List ℕ)
  | 0, _, s => some ([], s)
  | k + 1, visited, s =>
    match drawFresh N visited s with
    | none => none
    | some (i, s1) =>
      match allocPermAux N k (visited ++ [i]) s1 with
      | none => none
      | some (is, s2) => some (i :: is, s2)

/-- The full randomized chunk-to-subset assignment for one group: the list
`[i_0, …, i_{N-1}]` where aggregate subset `n` receives chunk `i_n`. -/
def allocPerm (N : ℕ) (stream : List ℕ) : Option (List ℕ × List ℕ) :=
  allocPermAux N N [] stream

/-- Deterministic-mode body of the per-group loop (lines 138–139):
`subsets[n] = pd.concat([subsets[n], subset[n]])` for every `n`. -/
def detStep {Row Val : Type} [DecidableEq Val] (value : Row → String → Val)
    (data : List Row) (N : ℕ) (cols : List String)
    (subsets : List (List Row)) (g : List Val) : List (List Row) :=
  let chunks := array_split (groupFilter value data cols g) N
  (List.range N).map (fun n => subsets.getD n [] ++ chunks.getD n [])

/-- Body of the per-group loop of `stratify` for either allocation mode,
threading the pseudorandom draw stream. -/
def stratGroupStep {Row Val : Type} [DecidableEq Val] (value : Row → String → Val)
    (data : List Row) (N : ℕ) (cols : List String) (random_alloc : Bool)
    (acc : List (List Row) × List ℕ) (g : List Val) :
    Option (List (List Row) × List ℕ) :=
  if random_alloc then
    let chunks := array_split (groupFilter value data cols g) N
    match allocPerm N acc.2 with
    | none => none
    | some (is, s1) =>
      some ((List.range N).map
        (fun n => acc.1.getD n [] ++ chunks.getD (is.getD n 0) []), s1)
  else
    some (detStep value data N cols acc.1 g, acc.2)

/-- `stratify` (lines 100–141): enumerate the cartesian product of each
stratification column's distinct observed values, and for every group key
split the matching rows into `nr_subset` near-equal chunks, appending them
to the aggregate subsets either deterministically or by a randomized
assignment drawing from `stream`. -/
def stratify {Row Val : Type} [DecidableEq Val] (value : Row → String → Val)
    (data : List Row) (nr_subset : ℕ) (stratify_on : List String)
    (random_alloc : Bool) (stream : List ℕ) :
    Option (List (List Row) × List ℕ) :=
  let groups := cartProd (stratify_on.map
    (fun c => uniqueFirst (data.map (fun r => value r c))))
  groups.foldlM (stratGroupStep value data nr_subset stratify_on random_alloc)
    (List.replicate nr_subset [], stream)

/-- Lines 78–82 of `stratify_wrapper`: resolve the stratification columns —
the target if its dtype is categorical or binary, then the group-by columns
if `tss.is_timeseries and isinstance(tss.group_by, list)`. -/
def resolveStratifyOn (target : String) (dtype_dict : String → Dtype)
    (tss : TimeseriesSettings) : List String :=
  let s1 : List String :=
    if dtype_dict target = Dtype.categorical ∨ dtype_dict target = Dtype.binary
    then [target] else []
  let s2 : List String :=
    match tss.group_by with
    | some gbs => if tss.is_timeseries then gbs else []
    | none => []
  s1 ++ s2

/-- The resolution as §4.2 of the spec words it: include the target when its
dtype is categorical or binary, and the group-by columns exactly when
`is_timeseries` holds and `group_by` is a non-empty list.  Stated for
comparison with `resolveStratifyOn`, which is translated from the code. -/
def resolveStratifyOnSpec (target : String) (dtype_dict : String → Dtype)
    (tss : TimeseriesSettings) : List String :=
  (if dtype_dict target = Dtype.categorical ∨ dtype_dict target = Dtype.binary
    then [target] else []) ++
  (match tss.group_by with
    | some gbs => if tss.is_timeseries ∧ gbs ≠ [] then gbs else []
    | none => [])

/-- `stratify_wrapper` (lines 60–97).  When the resolved column list is
empty the inputs pass through unchanged.  Otherwise the code computes
`np.gcd(100, np.gcd(pct_test, np.gcd(pct_train, pct_dev)))` on the raw
fractions — which are Python floats, so the innermost `np.gcd` raises
`TypeError`; the remaining lines (GCD-unit subset count, stratification,
balance validation and reassembly by `int(pct/gcd)` cutoffs) are translated
below the failing call and are unreachable for float fractions.
The deterministic `stratify` call ignores its draw stream
(`stratify_false_stream` below), so `[]` is passed for it. -/
def stratify_wrapper {Row Val : Type} [DecidableEq Val] (value : Row → String → Val)
    (train dev test : List Row) (target : String) (pcts : ℚ × ℚ × ℚ)
    (dtype_dict : String → Dtype) (tss : TimeseriesSettings) :
    Except PyErr (List Row × List Row × List Row × List String) :=
  let stratify_on := resolveStratifyOn target dtype_dict tss
  if stratify_on.isEmpty then .ok (train, dev, test, stratify_on)
  else
    let (pct_train, pct_dev, pct_test) := pcts
    let data := train ++ dev ++ test
    match npGcd (.float pct_train) (.float pct_dev) with
    | .error e => .error e
    | .ok g1 =>
      match npGcd (.float pct_test) (.int g1) with
      | .error e => .error e
      | .ok g2 =>
        match npGcd (.int 100) (.int g2) with
        | .error e => .error e
        | .ok gcd =>
          let nr_subsets := (pyInt (100 / (gcd : ℚ))).toNat
          match stratify value data nr_subsets stratify_on false [] with
          | none => .error .valueError
          | some (subsets0, _) =>
            match randomize_uneven_stratification data subsets0 nr_subsets tss 2 with
            | none => .error .valueError
            | some subsets =>
              let k1 := (pyInt (pct_train / (gcd : ℚ))).toNat
              let k2 := (pyInt (pct_train / (gcd : ℚ) + pct_dev / (gcd : ℚ))).toNat
              .ok ((subsets.take k1).flatten,
                ((subsets.drop k1).take (k2 - k1)).flatten,
                (subsets.drop k2).flatten, stratify_on)

/-- The dictionary returned by `splitter`: the three partitions and the
columns stratified on. -/
structure SplitResult (Row : Type) where
  train : List Row
  dev : List Row
  test : List Row
  stratified_on : List String
deriving DecidableEq

/-- `splitter` (lines 10–57).  `amb` is the ambient global numpy random
state (a stream of pending draws): `np.random.seed(seed)` on line 39 would
replace it by a state derived from `seed` alone, and the shuffle is keyed by
`seed` directly, so `amb` is never consumed.  The first statement applies
the built-in `sum` to the scalar `pct_train + pct_dev + pct_test`, which
raises `TypeError` before anything else runs. -/
def splitter {Row Val : Type} [DecidableEq Val] (value : Row → String → Val)
    (amb : List ℕ) (data : List Row) (tss : TimeseriesSettings)
    (dtype_dict : String → Dtype) (seed : ℕ)
    (pct_train pct_dev pct_test : ℚ) (target : Option String) :
    Except PyErr (SplitResult Row) :=
  match pySum (.float (pct_train + pct_dev + pct_test)) with
  | .error e => .error e
  | .ok s =>
    if s ≠ 1 then .error .configError
    else
      let t := split_basic seed tss.is_timeseries pct_train pct_dev data
      match target with
      | none => .ok ⟨t.train, t.dev, t.test, []⟩
      | some tgt =>
        match stratify_wrapper value t.train t.dev t.test tgt
            (pct_train, pct_dev, pct_test) dtype_dict tss with
        | .error e => .error e
        | .ok (tr, dv, te, so) => .ok ⟨tr, dv, te, so⟩

/-! ### Supporting lemmas -/

theorem ratFloor_eq_intFloor (q : ℚ) : q.floor = ⌊q⌋ :=
  (Rat.floor_def' q).trans Rat.floor_def.symm

theorem pyRound_ge (q : ℚ) : q - 1 / 2 ≤ (pyRound q : ℚ) := by
  have h1 : (⌊q⌋ : ℚ) ≤ q := Int.floor_le q
  have h2 : q < ⌊q⌋ + 1 := Int.lt_floor_add_one q
  unfold pyRound
  rw [ratFloor_eq_intFloor]
  split_ifs with hlt hgt hev <;> push_cast <;> linarith

theorem pyRound_nonneg {q : ℚ} (hq : 0 ≤ q) : 0 ≤ pyRound q := by
  have h0 : 0 ≤ ⌊q⌋ := Int.le_floor.mpr (by exact_mod_cast hq)
  unfold pyRound
  rw [ratFloor_eq_intFloor]
  split_ifs <;> omega

theorem pyRound_natCast (n : ℕ) : pyRound (n : ℚ) = n := by
  unfold pyRound
  rw [ratFloor_eq_intFloor, Int.floor_natCast]
  norm_num

theorem pyRound_zero : pyRound 0 = 0 := by
  simpa using pyRound_natCast 0

theorem take_drop_parts {α : Type} (l : List α) (tc rb : ℕ) :
    l.take tc ++ ((l.drop tc).take rb ++ l.drop (tc + rb)) = l := by
  rw [List.drop_take_append_drop, List.take_append_drop]

theorem cons_eraseIdx_perm {α : Type} (l : List α) :
    ∀ (i : ℕ) (h : i < l.length), List.Perm (l.get ⟨i, h⟩ :: l.eraseIdx i) l := by
  induction l with
  | nil => intro i h; simp at h
  | cons x xs ih =>
    intro i h
    cases i with
    | zero => simp
    | succ i =>
      have h' : i < xs.length := by simpa using h
      show List.Perm (xs.get ⟨i, h'⟩ :: x :: xs.eraseIdx i) (x :: xs)
      exact (List.Perm.swap x _ _).trans ((ih i h').cons x)

theorem shuffle_perm {Row : Type} (l : List Row) :
    ∀ s : ℕ, List.Perm (shuffle s l) l := by
  have H : ∀ (n : ℕ) (l : List Row), l.length = n → ∀ s : ℕ,
      List.Perm (shuffle s l) l := by
    intro n
    induction n using Nat.strong_induction_on with
    | _ n ih =>
      intro l hl s
      cases l with
      | nil => simp [shuffle]
      | cons x xs =>
        rw [shuffle]
        have hi : (s % (x :: xs).length) < (x :: xs).length :=
          Nat.mod_lt _ (Nat.succ_pos _)
        have hlen : ((x :: xs).eraseIdx (s % (x :: xs).length)).length < n := by
          simp only [List.length_eraseIdx, if_pos hi]
          omega
        exact ((ih _ hlen _ rfl (lcg s)).cons _).trans
          (cons_eraseIdx_perm (x :: xs) (s % (x :: xs).length) hi)
  exact fun s => H l.length l rfl s

theorem shuffle_length {Row : Type} (s : ℕ) (l : List Row) :
    (shuffle s l).length = l.length :=
  (shuffle_perm l s).length_eq

theorem splitSizes_length {α : Type} (ks : List ℕ) :
    ∀ xs : List α, (splitSizes xs ks).length = ks.length := by
  induction ks with
  | nil => intro xs; rfl
  | cons k ks ih => intro xs; simp [splitSizes, ih]

theorem splitSizes_flatten {α : Type} (ks : List ℕ) :
    ∀ xs : List α, (splitSizes xs ks).flatten = xs.take ks.sum := by
  induction ks with
  | nil => intro xs; simp [splitSizes]
  | cons k ks ih =>
    intro xs
    simp only [splitSizes, List.flatten_cons, ih, List.sum_cons]
    rw [List.take_add]

theorem splitSizes_map_length {α : Type} (ks : List ℕ) :
    ∀ xs : List α, ks.sum ≤ xs.length →
      (splitSizes xs ks).map List.length = ks := by
  induction ks with
  | nil => intro xs _; rfl
  | cons k ks ih =>
    intro xs h
    rw [List.sum_cons] at h
    have hk : k ≤ xs.length := le_trans (Nat.le_add_right _ _) h
    have hrest : ks.sum ≤ (xs.drop k).length := by
      rw [List.length_drop]; omega
    simp only [splitSizes, List.map_cons, ih (xs.drop k) hrest,
      List.length_take, Nat.min_eq_left hk]

theorem array_sizes_sum (L n : ℕ) (hn : 1 ≤ n) :
    (List.replicate (L % n) (L / n + 1) ++ List.replicate (n - L % n) (L / n)).sum
      = L := by
  rw [List.sum_append]
  simp only [List.sum_replicate, smul_eq_mul]
  have h1 : n * (L / n) + L % n = L := Nat.div_add_mod L n
  have h2 : L % n ≤ n := (Nat.mod_lt _ hn).le
  have hAB : L % n * (L / n) ≤ n * (L / n) := Nat.mul_le_mul_right _ h2
  rw [Nat.mul_succ, Nat.sub_mul]
  generalize hA : L % n * (L / n) = A at hAB ⊢
  generalize hB : n * (L / n) = B at hAB h1 ⊢
  omega

theorem array_split_length {α : Type} (xs : List α) (n : ℕ) (hn : 1 ≤ n) :
    (array_split xs n).length = n := by
  unfold array_split
  rw [splitSizes_length]
  have h2 : xs.length % n < n := Nat.mod_lt _ hn
  simp [List.length_append]
  omega

theorem array_split_flatten {α : Type} (xs : List α) (n : ℕ) (hn : 1 ≤ n) :
    (array_split xs n).flatten = xs := by
  unfold array_split
  rw [splitSizes_flatten, array_sizes_sum _ _ hn, List.take_length]

theorem array_split_chunk_sizes {α : Type} (xs : List α) (n : ℕ) (hn : 1 ≤ n) :
    ∀ c ∈ array_split xs n,
      c.length = xs.length / n ∨ c.length = xs.length / n + 1 := by
  intro c hc
  have hsum := array_sizes_sum xs.length n hn
  have hmap := splitSizes_map_length
    (List.replicate (xs.length % n) (xs.length / n + 1) ++
      List.replicate (n - xs.length % n) (xs.length / n)) xs (le_of_eq hsum)
  have hmem : c.length ∈ (array_split xs n).map List.length :=
    List.mem_map_of_mem _ hc
  unfold array_split at hmem
  rw [hmap] at hmem
  rcases List.mem_append.mp hmem with h | h
  · exact Or.inr (List.eq_of_mem_replicate h)
  · exact Or.inl (List.eq_of_mem_replicate h)

theorem drawFresh_spec (N : ℕ) (v : List ℕ) :
    ∀ (s : List ℕ) {i : ℕ} {s1 : List ℕ}, drawFresh N v s = some (i, s1) →
      i ∉ v ∧ (0 < N → i < N) := by
  intro s
  induction s with
  | nil => intro i s1 h; simp [drawFresh] at h
  | cons x rest ih =>
    intro i s1 h
    by_cases hx : x % N ∈ v
    · rw [drawFresh, if_pos hx] at h
      exact ih h
    · rw [drawFresh, if_neg hx] at h
      obtain ⟨rfl, rfl⟩ : x % N = i ∧ rest = s1 := by
        simpa using h
      exact ⟨hx, fun hN => Nat.mod_lt _ hN⟩

theorem allocPermAux_spec (N : ℕ) :
    ∀ (k : ℕ) (v s : List ℕ) {is : List ℕ} {s2 : List ℕ},
      allocPermAux N k v s = some (is, s2) →
      is.length = k ∧ is.Nodup ∧ (∀ i ∈ is, i ∉ v) ∧
        (0 < N → ∀ i ∈ is, i < N) := by
  intro k
  induction k with
  | zero =>
    intro v s is s2 h
    obtain ⟨rfl, rfl⟩ : ([] : List ℕ) = is ∧ s = s2 := by
      simpa [allocPermAux] using h
    simp
  | succ k ih =>
    intro v s is s2 h
    rw [allocPermAux] at h
    cases hd : drawFresh N v s with
    | none => rw [hd] at h; simp at h
    | some p =>
      obtain ⟨i, s1⟩ := p
      rw [hd] at h
      dsimp only at h
      cases ha : allocPermAux N k (v ++ [i]) s1 with
      | none => rw [ha] at h; simp at h
      | some q =>
        obtain ⟨is1, s2'⟩ := q
        rw [ha] at h
        dsimp only at h
        obtain ⟨rfl, rfl⟩ : i :: is1 = is ∧ s2' = s2 := by simpa using h
        obtain ⟨hiv, hiN⟩ := drawFresh_spec N v s hd
        obtain ⟨hlen, hnd, hvv, hlt⟩ := ih (v ++ [i]) s1 ha
        refine ⟨by simp [hlen], ?_, ?_, ?_⟩
        · refine List.nodup_cons.mpr ⟨fun hmem => ?_, hnd⟩
          exact hvv i hmem (by simp)
        · intro j hj
          rcases List.mem_cons.mp hj with rfl | hj1
          · exact hiv
          · intro hv; exact hvv j hj1 (List.mem_append_left _ hv)
        · intro hN j hj
          rcases List.mem_cons.mp hj with rfl | hj1
          · exact hiN hN
          · exact hlt hN j hj1

theorem stratGroupStep_false {Row Val : Type} [DecidableEq Val]
    (value : Row → String → Val) (data : List Row) (N : ℕ) (cols : List String)
    (A : List (List Row)) (s : List ℕ) (g : List Val) :
    stratGroupStep value data N cols false (A, s) g =
      some (detStep value data N cols A g, s) := rfl

theorem stratify_foldlM_false {Row Val : Type} [DecidableEq Val]
    (value : Row → String → Val) (data : List Row) (N : ℕ) (cols : List String) :
    ∀ (gs : List (List Val)) (A : List (List Row)) (s : List ℕ),
      List.foldlM (stratGroupStep value data N cols false) (A, s) gs =
        some (gs.foldl (detStep value data N cols) A, s) := by
  intro gs
  induction gs with
  | nil => intro A s; rfl
  | cons g gs ih =>
    intro A s
    rw [List.foldlM_cons, stratGroupStep_false]
    exact ih (detStep value data N cols A g) s

/-! ### Concrete fixtures used by witnesses and counterexamples -/

/-- A concrete valuation on integer rows: every column holds the row's parity. -/
def exValue : ℤ → String → ℤ := fun r _ => r % 2

/-- Concrete non-time-series settings. -/
def tssPlain : TimeseriesSettings := ⟨false, none⟩

/-- A dtype map sending every column to `numeric`. -/
def dtNum : String → Dtype := fun _ => Dtype.numeric

/-- A dtype map sending every column to `categorical`. -/
def dtCat : String → Dtype := fun _ => Dtype.categorical

/-! ### The claims -/

/-- C2: for every input whatsoever — any data, fractions (including ones
summing exactly to 1), seed, settings, dtype map, target and ambient random
state — `splitter` raises `TypeError` at its fraction-sum check, because
`sum(pct_train + pct_dev + pct_test)` applies the iterable summation
built-in to a single scalar float; consequently no invocation of `splitter`
ever returns a split result. -/
theorem claim2_splitter_always_raises {Row Val : Type} [DecidableEq Val]
    (value : Row → String → Val) (amb : List ℕ) (data : List Row)
    (tss : TimeseriesSettings) (dtype_dict : String → Dtype) (seed : ℕ)
    (pct_train pct_dev pct_test : ℚ) (target : Option String) :
    splitter value amb data tss dtype_dict seed pct_train pct_dev pct_test target
        = .error .typeError ∧
    ∀ r : SplitResult Row,
      splitter value amb data tss dtype_dict seed pct_train pct_dev pct_test target
        ≠ .ok r :=
  ⟨rfl, fun _ h => Except.noConfusion h⟩

/-- C1: the claim states that a configuration error is raised exactly when
the fractions do not sum to 1, and that inputs summing exactly to 1 raise
no configuration error.  Evaluating the code at fractions that sum exactly
to 1 shows it raises `TypeError` (from `sum` applied to a scalar) — not the
configuration error, and not nothing. -/
theorem claim1_sum_check_code_bug :
    (1 / 2 + 1 / 4 + 1 / 4 : ℚ) = 1 ∧
    splitter exValue [] ([0, 1, 2, 3] : List ℤ) tssPlain dtNum 7
        (1 / 2) (1 / 4) (1 / 4) none = .error .typeError ∧
    PyErr.typeError ≠ PyErr.configError :=
  ⟨by norm_num, rfl, by decide⟩

/-- C3: the claim states the bridge computes `N = 100 / g` with
`g = gcd(100, gcd(pct_test*100, gcd(pct_train*100, pct_dev*100)))`.  The
code omits the `*100`, passing the raw float fractions to `np.gcd`, so for
the whole-number-percentage triple `(0.8, 0.1, 0.1)` (where the claim's
formula gives `g = 10`, `N = 10`) the bridge instead raises `TypeError`. -/
theorem claim3_gcd_float_code_bug :
    resolveStratifyOn "t" dtCat tssPlain = ["t"] ∧
    stratify_wrapper exValue ([0, 1, 2, 3, 4, 5, 6, 7] : List ℤ) [8] [9] "t"
        (4 / 5, 1 / 10, 1 / 10) dtCat tssPlain = .error .typeError ∧
    Int.gcd 100 (Int.gcd 10 (Int.gcd 80 10)) = 10 :=
  ⟨rfl, rfl, by decide⟩

/-- C4: the claim states the returned train/dev/test conserve the input's
rows in both paths.  Evaluating the code on a concrete nonempty dataset
with fractions summing to 1 and a categorical target shows it raises
`TypeError` and returns no partitions at all, so conservation fails. -/
theorem claim4_row_conservation_code_bug :
    (7 / 10 + 1 / 5 + 1 / 10 : ℚ) = 1 ∧
    splitter exValue [] ([10, 11, 12] : List ℤ) tssPlain dtCat 3
        (7 / 10) (1 / 5) (1 / 10) (some "t") = .error .typeError :=
  ⟨by norm_num, rfl⟩

/-- C5: in the randomized-allocation mode of `stratify`, whenever the
rejection loop completes for a group (`allocPerm` returns the assignment
`[i_0, …, i_{N-1}]`, aggregate subset `n` receiving chunk `i_n`), the
assignment is a permutation of `0, …, N-1`: each aggregate subset receives
exactly one chunk, with no repeats and no omissions — including the
degenerate `N = 1`. -/
theorem claim5_random_alloc_bijection (N : ℕ) (stream : List ℕ)
    {is s2 : List ℕ} (h : allocPerm N stream = some (is, s2)) :
    List.Perm is (List.range N) := by
  obtain ⟨hlen, hnd, _, hlt⟩ := allocPermAux_spec N N [] stream h
  rcases Nat.eq_zero_or_pos N with rfl | hN
  · rw [List.length_eq_zero.mp hlen]
    exact List.Perm.refl _
  · have hsub : is ⊆ List.range N := fun i hi => List.mem_range.mpr (hlt hN i hi)
    exact (hnd.subperm hsub).perm_of_length_le (by simp [hlen])

/-- Witness for C5 at two concrete draw streams, including `N = 1`. -/
theorem claim5_witness :
    allocPerm 3 [5, 5, 1, 0] = some ([2, 1, 0], []) ∧
    List.Perm [2, 1, 0] (List.range 3) ∧
    allocPerm 1 [7] = some ([0], []) ∧
    List.Perm [0] (List.range 1) :=
  ⟨rfl, claim5_random_alloc_bijection 3 [5, 5, 1, 0] rfl, rfl,
    claim5_random_alloc_bijection 1 [7] rfl⟩

/-- C8: with `is_timeseries = true` the cutoff split performs no reordering:
train is exactly the first `train_cutoff` rows of the input in original
order, dev the next rows, test the remainder, and the three concatenate
back to the input. -/
theorem claim8_timeseries_no_reorder {Row : Type} (seed : ℕ) (a b : ℚ)
    (data : List Row) :
    (split_basic seed true a b data).train
        = data.take ((pyRound ((data.length : ℚ) * a)).toNat) ∧
    (split_basic seed true a b data).dev
        = (data.drop ((pyRound ((data.length : ℚ) * a)).toNat)).take
            ((pyRound ((data.length : ℚ) * b)).toNat) ∧
    (split_basic seed true a b data).test
        = data.drop ((pyRound ((data.length : ℚ) * a)).toNat
            + (pyRound ((data.length : ℚ) * b)).toNat) ∧
    (split_basic seed true a b data).train ++ (split_basic seed true a b data).dev
        ++ (split_basic seed true a b data).test = data := by
  refine ⟨rfl, rfl, rfl, ?_⟩
  rw [List.append_assoc]
  exact take_drop_parts data _ _

/-- C10: determinism.  The outcome of `splitter` does not depend on the
ambient global random state (it is a function of data, seed, fractions,
dtype map, settings and target only), and the deterministic-mode
(`random_alloc = false`) stratifier produces the same subsets for any two
draw streams. -/
theorem claim10_determinism {Row Val : Type} [DecidableEq Val]
    (value : Row → String → Val) (data : List Row) (tss : TimeseriesSettings)
    (dtype_dict : String → Dtype) (seed : ℕ) (a b c : ℚ)
    (target : Option String) (amb amb' : List ℕ) (N : ℕ)
    (cols : List String) (s s' : List ℕ) :
    splitter value amb data tss dtype_dict seed a b c target
        = splitter value amb' data tss dtype_dict seed a b c target ∧
    (stratify value data N cols false s).map (fun p => p.1)
        = (stratify value data N cols false s').map (fun p => p.1) := by
  refine ⟨rfl, ?_⟩
  simp only [stratify]
  rw [stratify_foldlM_false, stratify_foldlM_false]
  rfl

/-- C9: the bridge resolves `stratified_on` to contain the target exactly
when its dtype is categorical or binary, followed by the group-by columns
exactly when `is_timeseries` holds and `group_by` is a non-empty list
(`resolveStratifyOnSpec` is that wording); and whenever the resolved list
is empty, the bridge returns the inputs unchanged with an empty list. -/
theorem claim9_bridge_resolution {Row Val : Type} [DecidableEq Val]
    (value : Row → String → Val) (train dev test : List Row) (target : String)
    (pcts : ℚ × ℚ × ℚ) (dtype_dict : String → Dtype)
    (tss : TimeseriesSettings) :
    resolveStratifyOn target dtype_dict tss
        = resolveStratifyOnSpec target dtype_dict tss ∧
    (resolveStratifyOn target dtype_dict tss = [] →
      stratify_wrapper value train dev test target pcts dtype_dict tss
        = .ok (train, dev, test, [])) := by
  constructor
  · unfold resolveStratifyOn resolveStratifyOnSpec
    cases hgb : tss.group_by with
    | none => rfl
    | some gbs =>
      by_cases hts : tss.is_timeseries
      · cases gbs with
        | nil => simp [hts]
        | cons g0 gr => simp [hts]
      · simp [hts]
  · intro h
    simp [stratify_wrapper, h]

/-- Witness for C9: numeric target, no time series — the resolved list is
empty and the bridge passes the three partitions through unchanged. -/
theorem claim9_witness :
    resolveStratifyOn "t" dtNum tssPlain = [] ∧
    stratify_wrapper exValue ([0] : List ℤ) [1] [2] "t" (4 / 5, 1 / 10, 1 / 10)
        dtNum tssPlain = .ok ([0], [1], [2], []) :=
  ⟨rfl, (claim9_bridge_resolution exValue [0] [1] [2] "t" (4 / 5, 1 / 10, 1 / 10)
    dtNum tssPlain).2 rfl⟩

/-- C6: the Balance Validator with threshold 2 returns the subsets
unmodified on every time-series input; on non-time-series input (with at
least one subset, as `np.max` requires) it returns the subsets unmodified
when no subset is more than 2 shorter than the longest, and otherwise
replaces them by `np.array_split(data, N)` — a plain contiguous partition
into `N` chunks whose concatenation is `data` and whose chunk sizes differ
by at most one. -/
theorem claim6_balance_validator {Row : Type} (data : List Row)
    (subsets : List (List Row)) (N : ℕ) (tss : TimeseriesSettings)
    (hne : subsets ≠ []) (hN : 1 ≤ N) :
    (tss.is_timeseries = true →
      randomize_uneven_stratification data subsets N tss 2 = some subsets) ∧
    (tss.is_timeseries = false →
      ((∀ s ∈ subsets, (maxLen subsets : ℤ) - 2 ≤ (s.length : ℤ)) →
        randomize_uneven_stratification data subsets N tss 2 = some subsets) ∧
      ((∃ s ∈ subsets, (s.length : ℤ) < (maxLen subsets : ℤ) - 2) →
        randomize_uneven_stratification data subsets N tss 2
            = some (array_split data N) ∧
          (array_split data N).flatten = data ∧
          (array_split data N).length = N ∧
          ∀ c ∈ array_split data N,
            c.length = data.length / N ∨ c.length = data.length / N + 1)) := by
  have hne' : subsets.isEmpty = false := by
    cases subsets with
    | nil => exact absurd rfl hne
    | cons x xs => rfl
  constructor
  · intro hts
    simp [randomize_uneven_stratification, hts]
  · intro hts
    constructor
    · intro hall
      have hany : subsets.any
          (fun s => decide ((s.length : ℤ) < (maxLen subsets : ℤ) - 2)) = false := by
        rw [List.any_eq_false]
        intro s hs
        simpa using not_lt.mpr (hall s hs)
      simp [randomize_uneven_stratification, hts, hne', hany]
    · intro hex
      obtain ⟨s0, hs0, hlt⟩ := hex
      have hany : subsets.any
          (fun s => decide ((s.length : ℤ) < (maxLen subsets : ℤ) - 2)) = true :=
        List.any_eq_true.mpr ⟨s0, hs0, by simpa using hlt⟩
      exact ⟨by simp [randomize_uneven_stratification, hts, hne', hany],
        array_split_flatten data N hN, array_split_length data N hN,
        array_split_chunk_sizes data N hN⟩

/-- Witness for C6: a non-time-series input whose second subset is more
than 2 shorter than the first, so the validator reverts to the plain
contiguous partition. -/
theorem claim6_witness :
    ([[0, 1, 2, 3], [4]] : List (List ℤ)) ≠ [] ∧ 1 ≤ 2 ∧
    (randomize_uneven_stratification ([0, 1, 2, 3, 4, 5] : List ℤ)
        [[0, 1, 2, 3], [4]] 2 tssPlain 2 = some (array_split [0, 1, 2, 3, 4, 5] 2) ∧
      (array_split ([0, 1, 2, 3, 4, 5] : List ℤ) 2).flatten = [0, 1, 2, 3, 4, 5] ∧
      (array_split ([0, 1, 2, 3, 4, 5] : List ℤ) 2).length = 2 ∧
      ∀ c ∈ array_split ([0, 1, 2, 3, 4, 5] : List ℤ) 2,
        c.length = 6 / 2 ∨ c.length = 6 / 2 + 1) :=
  ⟨by decide, by decide,
    ((claim6_balance_validator [0, 1, 2, 3, 4, 5] [[0, 1, 2, 3], [4]] 2 tssPlain
      (by decide) (by decide)).2 rfl).2 (by decide)⟩

/-- The cutoff-split property of C7 as amended: the three partitions are
the Python slices at the rounded cutoffs of the (shuffled unless
time-series) row sequence; their lengths sum exactly to the input length
(in particular within ±2 of it); a zero train or dev fraction yields an
empty train or dev partition; a zero test fraction leaves at most one row
in test; and the triple `(1, 0, 0)` yields empty dev and test with train
equal to the full dataset (up to the seed-keyed shuffle). -/
def cutoffClaim {Row : Type} (seed : ℕ) (isTs : Bool) (a b c : ℚ)
    (data : List Row) : Prop :=
  let d := if isTs then data else shuffle seed data
  let tc := (pyRound ((d.length : ℚ) * a)).toNat
  let rb := (pyRound ((d.length : ℚ) * b)).toNat
  let t := split_basic seed isTs a b data
  t.train = d.take tc ∧ t.dev = (d.drop tc).take rb ∧
  t.test = d.drop (tc + rb) ∧
  t.train.length + t.dev.length + t.test.length = data.length ∧
  (a = 0 → t.train = []) ∧ (b = 0 → t.dev = []) ∧
  (c = 0 → t.test.length ≤ 1) ∧
  (a = 1 ∧ b = 0 ∧ c = 0 →
    List.Perm t.train data ∧ t.dev = [] ∧ t.test = [])

/-- C7 (amended): for every dataset and nonnegative fractions summing
exactly to 1, the cutoff split satisfies `cutoffClaim`.  (The claim's
original "a zero fraction yields an empty partition" fails for the test
fraction — see the counterexample — and is weakened to "at most one row".) -/
theorem claim7_cutoff_split_amended {Row : Type} (seed : ℕ) (isTs : Bool)
    (a b c : ℚ) (data : List Row) (ha : 0 ≤ a) (hb : 0 ≤ b) (hc : 0 ≤ c)
    (hsum : a + b + c = 1) :
    cutoffClaim seed isTs a b c data := by
  simp only [cutoffClaim]
  set d := if isTs then data else shuffle seed data with hd
  have hdlen : d.length = data.length := by
    rw [hd]
    cases isTs
    · simpa using shuffle_length seed data
    · simp
  refine ⟨rfl, rfl, rfl, ?_, ?_, ?_, ?_, ?_⟩
  · have hparts := take_drop_parts d ((pyRound ((d.length : ℚ) * a)).toNat)
      ((pyRound ((d.length : ℚ) * b)).toNat)
    have hlens := congrArg List.length hparts
    simp only [List.length_append] at hlens
    show (d.take ((pyRound ((d.length : ℚ) * a)).toNat)).length
        + ((d.drop ((pyRound ((d.length : ℚ) * a)).toNat)).take
            ((pyRound ((d.length : ℚ) * b)).toNat)).length
        + (d.drop ((pyRound ((d.length : ℚ) * a)).toNat
            + (pyRound ((d.length : ℚ) * b)).toNat)).length = data.length
    omega
  · intro ha0
    subst ha0
    show d.take ((pyRound ((d.length : ℚ) * 0)).toNat) = []
    simp [pyRound_zero]
  · intro hb0
    subst hb0
    show (d.drop ((pyRound ((d.length : ℚ) * a)).toNat)).take
      ((pyRound ((d.length : ℚ) * 0)).toNat) = []
    simp [pyRound_zero]
  · intro hc0
    subst hc0
    have hab : a + b = 1 := by linarith
    have g1 := pyRound_ge ((d.length : ℚ) * a)
    have g2 := pyRound_ge ((d.length : ℚ) * b)
    have hsumQ : ((d.length : ℚ)) - 1
        ≤ ((pyRound ((d.length : ℚ) * a) : ℤ) : ℚ)
          + ((pyRound ((d.length : ℚ) * b) : ℤ) : ℚ) := by
      have hdistr : (d.length : ℚ) * a + (d.length : ℚ) * b = (d.length : ℚ) := by
        rw [← mul_add, hab, mul_one]
      linarith
    have hsumZ : (d.length : ℤ) - 1
        ≤ pyRound ((d.length : ℚ) * a) + pyRound ((d.length : ℚ) * b) := by
      exact_mod_cast hsumQ
    have hnn1 : 0 ≤ pyRound ((d.length : ℚ) * a) :=
      pyRound_nonneg (mul_nonneg (by positivity) ha)
    have hnn2 : 0 ≤ pyRound ((d.length : ℚ) * b) :=
      pyRound_nonneg (mul_nonneg (by positivity) hb)
    show (d.drop ((pyRound ((d.length : ℚ) * a)).toNat
        + (pyRound ((d.length : ℚ) * b)).toNat)).length ≤ 1
    rw [List.length_drop]
    omega
  · rintro ⟨ha1, hb0, hc0⟩
    subst ha1
    subst hb0
    have htc : ((pyRound ((d.length : ℚ) * 1)).toNat) = d.length := by
      rw [mul_one]
      simp [pyRound_natCast]
    refine ⟨?_, ?_, ?_⟩
    · show List.Perm (d.take ((pyRound ((d.length : ℚ) * 1)).toNat)) data
      rw [htc, List.take_length, hd]
      cases isTs
      · simpa using shuffle_perm data seed
      · simp
    · show (d.drop ((pyRound ((d.length : ℚ) * 1)).toNat)).take
        ((pyRound ((d.length : ℚ) * 0)).toNat) = []
      simp [pyRound_zero]
    · show d.drop ((pyRound ((d.length : ℚ) * 1)).toNat
        + (pyRound ((d.length : ℚ) * 0)).toNat) = []
      rw [htc]
      simp [pyRound_zero]

/-- Counterexample to C7 as stated: with 5 rows and fractions
`(1/2, 1/2, 0)` (nonnegative, summing exactly to 1), both cutoffs are
`round(2.5) = 2` by half-to-even rounding, so the test partition receives
one row although the test fraction is zero — "a zero fraction yields an
empty partition" is false. -/
theorem claim7_counterexample :
    (1 / 2 + 1 / 2 + 0 : ℚ) = 1 ∧ (0 : ℚ) ≤ 1 / 2 ∧ (0 : ℚ) ≤ 0 ∧
    (split_basic 0 true (1 / 2) (1 / 2) ([0, 1, 2, 3, 4] : List ℤ)).test = [4] ∧
    (split_basic 0 true (1 / 2) (1 / 2) ([0, 1, 2, 3, 4] : List ℤ)).test ≠ [] := by
  with_unfolding_all decide

/-- Witness for C7 at a concrete time-series input with fractions
`(1/2, 1/4, 1/4)`. -/
theorem claim7_witness :
    0 ≤ (1 / 2 : ℚ) ∧ 0 ≤ (1 / 4 : ℚ) ∧ (1 / 2 + 1 / 4 + 1 / 4 : ℚ) = 1 ∧
    cutoffClaim 0 true (1 / 2) (1 / 4) (1 / 4) ([0, 1, 2, 3] : List ℤ) :=
  ⟨by with_unfolding_all decide, by with_unfolding_all decide,
    by with_unfolding_all decide,
    claim7_cutoff_split_amended 0 true (1 / 2) (1 / 4) (1 / 4) [0, 1, 2, 3]
      (by with_unfolding_all decide) (by with_unfolding_all decide)
      (by with_unfolding_all decide) (by with_unfolding_all decide)⟩

end Splitter
